import Mathlib

/-!
# Verification of the Shapes-py shape-configuration-and-sampling subsystem

Shallow embedding of `src/a43.py`: the `PyArtConfig` range-configuration
object, the `RandomShape` sampler and its serialization pipeline
(`__str__` / `as_Part2_line` / `as_svg`), the three shape record types with
their `draw` methods, and the `TableGen` tabular view.

Python strings are modelled as `List Char`; Python ints as `ℤ`; Python
floats as `ℚ` (the float literals 0.33, 0.66 of the source are modelled by
the decimal rationals they denote).  Randomness is modelled by an explicit
record of drawn values together with a validity predicate stating the
guarantees of Python's `random` module (`random.randint(a, b)` returns an
integer in `[a, b]` when `a ≤ b`; `random.uniform(a, b)` returns a real in
`[a, b]`; `random.choice(l)` returns an index into `l`).
-/

/-- Numeric value of a decimal digit character (used by the Python `int`
and `float` conversions in `as_svg`). -/
def charVal (c : Char) : ℕ := c.toNat - 48

/-- Decimal digits, structurally recursive on a fuel argument so that the
kernel can evaluate it (any fuel above the digit count gives the same
result; see `natCharsAux_congr`). -/
def natCharsAux (fuel : ℕ) (n : ℕ) : List Char :=
  match fuel with
  | 0 => []
  | f + 1 =>
    if n < 10 then [Nat.digitChar n]
    else natCharsAux f (n / 10) ++ [Nat.digitChar (n % 10)]

/-- Decimal representation of a natural number, as Python's `str` produces
it: most significant digit first, no sign, no leading zeros (a single `'0'`
for zero). -/
def natChars (n : ℕ) : List Char := natCharsAux (n + 1) n

theorem natCharsAux_congr : ∀ f1 f2 n, n < f1 → n < f2 → natCharsAux f1 n = natCharsAux f2 n := by
  intro f1
  induction f1 with
  | zero => intro f2 n h1 h2; omega
  | succ f ih =>
    intro f2 n h1 h2
    cases f2 with
    | zero => omega
    | succ f2 =>
      by_cases hn : n < 10
      · simp [natCharsAux, hn]
      · simp only [natCharsAux, if_neg hn]
        rw [ih f2 (n / 10) (by omega) (by omega)]

/-- The recurrence Python's decimal printing satisfies. -/
theorem natChars_unfold (n : ℕ) :
    natChars n =
      if n < 10 then [Nat.digitChar n]
      else natChars (n / 10) ++ [Nat.digitChar (n % 10)] := by
  by_cases hn : n < 10
  · rw [if_pos hn]
    unfold natChars
    simp [natCharsAux, hn]
  · rw [if_neg hn, show natChars n = natCharsAux (n + 1) n from rfl,
      show natChars (n / 10) = natCharsAux (n / 10 + 1) (n / 10) from rfl,
      show natCharsAux (n + 1) n = natCharsAux n (n / 10) ++ [Nat.digitChar (n % 10)] from by
        simp [natCharsAux, hn],
      natCharsAux_congr n (n / 10 + 1) (n / 10) (by omega) (by omega)]

/-- Python `int(s)` on an unsigned decimal numeral: fold up the digits. -/
def parseNat (l : List Char) : ℕ :=
  l.foldl (fun a c => 10 * a + charVal c) 0

/-- Python `str` of an `int` (possibly negative). -/
def intRepr (i : ℤ) : List Char :=
  if i < 0 then '-' :: natChars i.natAbs else natChars i.toNat

/-- Python `int(s)` on a signed decimal numeral. -/
def parseInt (l : List Char) : ℤ :=
  if l.head? = some '-' then -(parseNat (l.drop 1) : ℤ) else (parseNat l : ℤ)

/-- Python `str` of a float that is an exact multiple of 1/10, which is the
only kind the program prints: `round(x, 1)` yields the float nearest to a
decimal with one fractional digit, and Python's shortest-roundtrip float
repr prints it as `intpart.digit` (with a leading `-` when negative). -/
def fmtOp (q : ℚ) : List Char :=
  if ⌊q * 10⌋ < 0 then
    '-' :: (natChars (⌊q * 10⌋.natAbs / 10) ++ '.' :: [Nat.digitChar (⌊q * 10⌋.natAbs % 10)])
  else natChars (⌊q * 10⌋.toNat / 10) ++ '.' :: [Nat.digitChar (⌊q * 10⌋.toNat % 10)]

/-- Python `float(s)` on an unsigned decimal with optional fractional part:
value of the digits before the dot, plus the digits after the dot scaled
by their count. -/
def parsePosDec (l : List Char) : ℚ :=
  (parseNat (l.takeWhile (fun c => c ≠ '.')) : ℚ) +
    (parseNat ((l.dropWhile (fun c => c ≠ '.')).drop 1) : ℚ) /
      (10 ^ ((l.dropWhile (fun c => c ≠ '.')).drop 1).length)

/-- Python `float(s)` on a signed decimal numeral. -/
def parseDec (l : List Char) : ℚ :=
  if l.head? = some '-' then -(parsePosDec (l.drop 1)) else parsePosDec l

/-- Python `str.split(' ')`: split at every single space, auxiliary
accumulator form. -/
def splitAux (cur : List Char) : List Char → List (List Char)
  | [] => [cur.reverse]
  | c :: cs => if c = ' ' then cur.reverse :: splitAux [] cs else splitAux (c :: cur) cs

/-- Python `str.split(' ')`. -/
def splitOnSpace (l : List Char) : List (List Char) := splitAux [] l

/-- Join a list of strings with a single separator character (the f-string
of `RandomShape.__str__` joins the twelve fields with `'\n'`; `str.replace`
then turns that into a `' '`-joined line). -/
def joinSep (sep : Char) : List (List Char) → List Char
  | [] => []
  | [f] => f
  | f :: fs => f ++ sep :: joinSep sep fs

/-- Python 3 `round` to an integer: round-half-to-even. -/
def rhe (x : ℚ) : ℤ :=
  if x - ⌊x⌋ = 1 / 2 then (if 2 ∣ ⌊x⌋ then ⌊x⌋ else ⌊x⌋ + 1) else round x

/-- Python `round(x, 1)`: round to one decimal place (half-to-even). -/
def round1 (q : ℚ) : ℚ := (rhe (q * 10) : ℚ) / 10

/-- The indentation string `"   " * indent_level` of the `draw` methods. -/
def indentChars (indent_level : ℕ) : List Char :=
  (List.replicate indent_level "   ".toList).flatten

/-- `CircleShape` of `a43.py`: a NamedTuple holding all twelve shared
attributes (width/height/rx/ry are carried but unused by a circle). -/
structure CircleShape where
  x : ℤ
  y : ℤ
  rad : ℤ
  width : ℤ
  height : ℤ
  rx : ℤ
  ry : ℤ
  red : ℤ
  green : ℤ
  blue : ℤ
  op : ℚ

/-- `CircleShape.draw`: the svg code line for a circle. -/
def CircleShape.draw (s : CircleShape) (indent_level : ℕ) : List Char :=
  indentChars indent_level
    ++ "<circle cx=\"".toList ++ intRepr s.x
    ++ "\" cy=\"".toList ++ intRepr s.y
    ++ "\" r=\"".toList ++ intRepr s.rad
    ++ "\" fill=\"rgb(".toList ++ intRepr s.red
    ++ ", ".toList ++ intRepr s.green
    ++ ", ".toList ++ intRepr s.blue
    ++ ")\" fill-opacity=\"".toList ++ fmtOp s.op
    ++ "\"></circle>".toList

/-- `RectangleShape` of `a43.py` (rad/rx/ry carried but unused). -/
structure RectangleShape where
  x : ℤ
  y : ℤ
  rad : ℤ
  width : ℤ
  height : ℤ
  rx : ℤ
  ry : ℤ
  red : ℤ
  green : ℤ
  blue : ℤ
  op : ℚ

/-- `RectangleShape.draw`: the svg code line for a rectangle. -/
def RectangleShape.draw (s : RectangleShape) (indent_level : ℕ) : List Char :=
  indentChars indent_level
    ++ "<rect x=\"".toList ++ intRepr s.x
    ++ "\" y=\"".toList ++ intRepr s.y
    ++ "\" width=\"".toList ++ intRepr s.width
    ++ "\" height=\"".toList ++ intRepr s.height
    ++ "\" fill=\"rgb(".toList ++ intRepr s.red
    ++ ", ".toList ++ intRepr s.green
    ++ ", ".toList ++ intRepr s.blue
    ++ ")\" fill-opacity=\"".toList ++ fmtOp s.op
    ++ "\"></rect>".toList

/-- `EllipseShape` of `a43.py` (rad/width/height carried but unused). -/
structure EllipseShape where
  x : ℤ
  y : ℤ
  rad : ℤ
  width : ℤ
  height : ℤ
  rx : ℤ
  ry : ℤ
  red : ℤ
  green : ℤ
  blue : ℤ
  op : ℚ

/-- `EllipseShape.draw`: the svg code line for an ellipse. -/
def EllipseShape.draw (s : EllipseShape) (indent_level : ℕ) : List Char :=
  indentChars indent_level
    ++ "<ellipse cx=\"".toList ++ intRepr s.x
    ++ "\" cy=\"".toList ++ intRepr s.y
    ++ "\" rx=\"".toList ++ intRepr s.rx
    ++ "\" ry=\"".toList ++ intRepr s.ry
    ++ "\" fill=\"rgb(".toList ++ intRepr s.red
    ++ ", ".toList ++ intRepr s.green
    ++ ", ".toList ++ intRepr s.blue
    ++ ")\" fill-opacity=\"".toList ++ fmtOp s.op
    ++ "\"></ellipse>".toList

/-- The `SvgCanvas` data the config constructor reads (width and height). -/
structure SvgCanvasC where
  width : ℤ
  height : ℤ

/-- `PyArtConfig`: the mutable range-configuration object. -/
structure PyArtConfig where
  shape_type_range : List ℤ
  x_range : ℤ × ℤ
  y_range : ℤ × ℤ
  radius_range : ℤ × ℤ
  rxy_range : ℤ × ℤ
  w_h_range : ℤ × ℤ
  r_range : ℤ × ℤ
  g_range : ℤ × ℤ
  b_range : ℤ × ℤ
  opacity_range : ℚ × ℚ
deriving DecidableEq

/-- `PyArtConfig.__init__` with every keyword argument explicit. -/
def PyArtConfig.initFull (c : SvgCanvasC) (shape_type_range : List ℤ)
    (radius_range rxy_range w_h_range color_r_range color_g_range
      color_b_range : ℤ × ℤ) (opacity_range : ℚ × ℚ) : PyArtConfig :=
  { shape_type_range := shape_type_range
    x_range := (0, c.width)
    y_range := (0, c.height)
    radius_range := radius_range
    rxy_range := rxy_range
    w_h_range := w_h_range
    r_range := color_r_range
    g_range := color_g_range
    b_range := color_b_range
    opacity_range := opacity_range }

/-- `PyArtConfig.__init__` with all keyword arguments left at their
defaults, as every driver in the source calls it. -/
def PyArtConfig.init (c : SvgCanvasC) : PyArtConfig :=
  PyArtConfig.initFull c [0, 1, 2] (0, 100) (10, 30) (10, 100)
    (0, 255) (0, 255) (0, 255) (0, 1)

/-- `PyArtConfig.shapes`: restrict the allowed shape kinds.  `amt = 1`
keeps only `shape`; `amt = 0` keeps the complement given by the
`shape_ranges` dict of the source; anything else is a no-op. -/
def PyArtConfig.shapes (cfg : PyArtConfig) (shape amt : ℤ) : PyArtConfig :=
  if shape = 0 ∨ shape = 1 ∨ shape = 2 then
    if amt = 1 then { cfg with shape_type_range := [shape] }
    else if amt = 0 then
      { cfg with shape_type_range :=
          if shape = 0 then [1, 2]
          else if shape = 1 then [0, 2]
          else if shape = 2 then [0, 1] else [] }
    else cfg
  else cfg

/-- The attribute names `'radius_range' / 'w_h_range' / 'rxy_range'` that
`PyArtConfig.size` passes to `setattr`. -/
inductive SizeField
  | radiusF
  | whF
  | rxyF
deriving DecidableEq

/-- The `ranges` dict of `PyArtConfig.size`; `.get` with default
`(None, None)` becomes `Option`. -/
def sizeRanges (p : Char × Char) : Option (SizeField × (ℤ × ℤ)) :=
  if p = ('c', 's') then some (.radiusF, (0, 33))
  else if p = ('r', 's') then some (.whF, (10, 40))
  else if p = ('e', 's') then some (.rxyF, (10, 17))
  else if p = ('c', 'm') then some (.radiusF, (33, 66))
  else if p = ('r', 'm') then some (.whF, (40, 70))
  else if p = ('e', 'm') then some (.rxyF, (17, 24))
  else if p = ('c', 'l') then some (.radiusF, (66, 100))
  else if p = ('r', 'l') then some (.whF, (70, 100))
  else if p = ('e', 'l') then some (.rxyF, (24, 30))
  else none

/-- `setattr(self, attr_name, value)` for the three size attributes. -/
def setSizeField (cfg : PyArtConfig) : SizeField → (ℤ × ℤ) → PyArtConfig
  | .radiusF, v => { cfg with radius_range := v }
  | .whF, v => { cfg with w_h_range := v }
  | .rxyF, v => { cfg with rxy_range := v }

/-- One iteration of the loop in `PyArtConfig.size` (the `if attr_name and
value` guard is the `some` case: every stored value is truthy). -/
def PyArtConfig.sizeStep (cfg : PyArtConfig) (p : Char × Char) : PyArtConfig :=
  match sizeRanges p with
  | some (f, v) => setSizeField cfg f v
  | none => cfg

/-- `PyArtConfig.size`: the dict argument, iterated in insertion order. -/
def PyArtConfig.size (cfg : PyArtConfig) (shape_sizes : List (Char × Char)) : PyArtConfig :=
  shape_sizes.foldl PyArtConfig.sizeStep cfg

/-- The `color_ranges` list of `PyArtConfig.color`. -/
def color_ranges : List (ℤ × ℤ) := [(0, 0), (0, 85), (85, 170), (170, 255), (255, 255)]

/-- Python list indexing `l[i]`: non-negative indices from the front,
negative indices from the back, `none` (IndexError) outside `[-len, len)`. -/
def pyListGet (l : List (ℤ × ℤ)) (i : ℤ) : Option (ℤ × ℤ) :=
  if 0 ≤ i then l.get? i.toNat
  else if 0 ≤ i + l.length then l.get? (i + l.length).toNat
  else none

/-- One iteration of the loop in `PyArtConfig.color` (the loop unpacks
each dict item into `color, amount`); `.error` is an IndexError from
`color_ranges[amount]`, carrying the config state at the moment it is
raised. -/
def PyArtConfig.colorStep (cfg : PyArtConfig) (color : Char) (amount : ℤ) :
    Except PyArtConfig PyArtConfig :=
  if color = 'r' then
    match pyListGet color_ranges amount with
    | some v => .ok { cfg with r_range := v }
    | none => .error cfg
  else if color = 'g' then
    match pyListGet color_ranges amount with
    | some v => .ok { cfg with g_range := v }
    | none => .error cfg
  else if color = 'b' then
    match pyListGet color_ranges amount with
    | some v => .ok { cfg with b_range := v }
    | none => .error cfg
  else .ok cfg

/-- `PyArtConfig.color`: the dict argument, iterated in insertion order;
an IndexError aborts the loop with the mutations so far kept. -/
def PyArtConfig.color (cfg : PyArtConfig) : List (Char × ℤ) → Except PyArtConfig PyArtConfig
  | [] => .ok cfg
  | (c, amount) :: ps =>
    match cfg.colorStep c amount with
    | .ok cfg2 => cfg2.color ps
    | .error cfg2 => .error cfg2

/-- The `opacity_ranges` list of `PyArtConfig.op_amt`. -/
def opacity_ranges : List (ℚ × ℚ) :=
  [(0, 33 / 100), (33 / 100, 66 / 100), (66 / 100, 1), (1, 1)]

/-- `PyArtConfig.op_amt`: set the opacity range for `amt` in `[0, 1, 2, 3]`,
no-op otherwise. -/
def PyArtConfig.op_amt (cfg : PyArtConfig) (amt : ℤ) : PyArtConfig :=
  if amt = 0 ∨ amt = 1 ∨ amt = 2 ∨ amt = 3 then
    match opacity_ranges.get? amt.toNat with
    | some v => { cfg with opacity_range := v }
    | none => cfg
  else cfg

/-- The attribute record a `RandomShape` instance holds after
`generate_shape`, in assignment order. -/
structure RandomShape where
  shape_type : ℤ
  radius : ℤ
  width : ℤ
  height : ℤ
  rx : ℤ
  ry : ℤ
  x : ℤ
  y : ℤ
  color_r : ℤ
  color_g : ℤ
  color_b : ℤ
  opacity : ℚ
deriving DecidableEq

/-- One batch of values drawn from Python's process-wide random source
during `RandomShape.generate_shape`: the index `random.choice` picks, the
eleven `random.randint` results, and the raw `random.uniform` result
before rounding. -/
structure Draws where
  shape_choice : ℕ
  radius : ℤ
  width : ℤ
  height : ℤ
  rx : ℤ
  ry : ℤ
  x : ℤ
  y : ℤ
  color_r : ℤ
  color_g : ℤ
  color_b : ℤ
  opacity_u : ℚ
deriving DecidableEq

/-- A value `v` lies in the inclusive integer range `r`. -/
def inR (r : ℤ × ℤ) (v : ℤ) : Prop := r.1 ≤ v ∧ v ≤ r.2

/-- A value `v` lies in the inclusive rational range `r`. -/
def inRQ (r : ℚ × ℚ) (v : ℚ) : Prop := r.1 ≤ v ∧ v ≤ r.2

instance (r : ℤ × ℤ) (v : ℤ) : Decidable (inR r v) := by
  unfold inR; exact inferInstance

instance (r : ℚ × ℚ) (v : ℚ) : Decidable (inRQ r v) := by
  unfold inRQ; exact inferInstance

/-- The guarantees of Python's `random` module for the draws consumed by
`generate_shape` on `cfg`: `random.choice` returns an element of the list
(here: a valid index), `random.randint(a, b)` an integer in `[a, b]`, and
`random.uniform(a, b)` a real in `[a, b]`.  The `randint`/`uniform`
guarantees hold exactly when each configured range has `low ≤ high` (else
`randint` raises), which is the premise under which sampling is studied. -/
def ValidDraws (cfg : PyArtConfig) (d : Draws) : Prop :=
  d.shape_choice < cfg.shape_type_range.length ∧
  inR cfg.radius_range d.radius ∧
  inR cfg.w_h_range d.width ∧
  inR cfg.w_h_range d.height ∧
  inR cfg.rxy_range d.rx ∧
  inR cfg.rxy_range d.ry ∧
  inR cfg.x_range d.x ∧
  inR cfg.y_range d.y ∧
  inR cfg.r_range d.color_r ∧
  inR cfg.g_range d.color_g ∧
  inR cfg.b_range d.color_b ∧
  inRQ cfg.opacity_range d.opacity_u

instance (cfg : PyArtConfig) (d : Draws) : Decidable (ValidDraws cfg d) := by
  unfold ValidDraws; exact inferInstance

/-- `RandomShape.generate_shape`: each attribute takes the corresponding
drawn value; the opacity is the uniform draw rounded to one decimal. -/
def generate_shape (cfg : PyArtConfig) (d : Draws) : RandomShape :=
  { shape_type := cfg.shape_type_range.getD d.shape_choice 0
    radius := d.radius
    width := d.width
    height := d.height
    rx := d.rx
    ry := d.ry
    x := d.x
    y := d.y
    color_r := d.color_r
    color_g := d.color_g
    color_b := d.color_b
    opacity := round1 d.opacity_u }

/-- The twelve field strings of `RandomShape.__str__`, in its order. -/
def RandomShape.fieldStrs (s : RandomShape) : List (List Char) :=
  [intRepr s.shape_type, intRepr s.x, intRepr s.y, intRepr s.radius,
   intRepr s.width, intRepr s.height, intRepr s.rx, intRepr s.ry,
   intRepr s.color_r, intRepr s.color_g, intRepr s.color_b, fmtOp s.opacity]

/-- `RandomShape.__str__`: the twelve fields joined by newlines. -/
def RandomShape.pyStr (s : RandomShape) : List Char :=
  joinSep '\n' s.fieldStrs

/-- The character substitution of `str.replace('\n', ' ')`. -/
def replNl (c : Char) : Char := if c = '\n' then ' ' else c

/-- `RandomShape.as_Part2_line`: `str(self).replace('\n', ' ')`. -/
def RandomShape.as_Part2_line (s : RandomShape) : List Char :=
  s.pyStr.map replNl

/-- `CircleShape(*data)` with `data` ten ints and a float.  A wrong arity
raises TypeError in Python; the catch-all returns a zero record (it is
unreachable on lines produced by `as_Part2_line`). -/
def mkCircle (l : List ℤ) (op : ℚ) : CircleShape :=
  match l with
  | [x, y, rad, w, h, rx, ry, r, g, b] => ⟨x, y, rad, w, h, rx, ry, r, g, b, op⟩
  | _ => ⟨0, 0, 0, 0, 0, 0, 0, 0, 0, 0, op⟩

/-- `RectangleShape(*data)`, as `mkCircle`. -/
def mkRectangle (l : List ℤ) (op : ℚ) : RectangleShape :=
  match l with
  | [x, y, rad, w, h, rx, ry, r, g, b] => ⟨x, y, rad, w, h, rx, ry, r, g, b, op⟩
  | _ => ⟨0, 0, 0, 0, 0, 0, 0, 0, 0, 0, op⟩

/-- `EllipseShape(*data)`, as `mkCircle`. -/
def mkEllipse (l : List ℤ) (op : ℚ) : EllipseShape :=
  match l with
  | [x, y, rad, w, h, rx, ry, r, g, b] => ⟨x, y, rad, w, h, rx, ry, r, g, b, op⟩
  | _ => ⟨0, 0, 0, 0, 0, 0, 0, 0, 0, 0, op⟩

/-- The data-extraction step of `RandomShape.as_svg`:
`input_string.split(" ")[1:-1]` parsed as ints, and the last field parsed
as a float. -/
def RandomShape.reconData (s : RandomShape) : List ℤ × ℚ :=
  let parts := splitOnSpace s.as_Part2_line
  ((parts.drop 1).dropLast.map parseInt, parseDec (parts.getLastD []))

/-- `RandomShape.as_svg`: rebuild the shape record from the flattened line
and draw it at the default indent level 2. -/
def RandomShape.as_svg (s : RandomShape) : List Char :=
  if s.shape_type = 0 then (mkCircle s.reconData.1 s.reconData.2).draw 2
  else if s.shape_type = 1 then (mkRectangle s.reconData.1 s.reconData.2).draw 2
  else (mkEllipse s.reconData.1 s.reconData.2).draw 2

/-- The `headers` list of `TableGen.gen_df` with `'CNT'` moved to the
front, i.e. the displayed column order after `df = df[['CNT'] + headers]`. -/
def TableGen.colHeaders : List String :=
  ["CNT", "SHA", "X", "Y", "RAD", "RX", "RY", "W", "H", "R", "G", "B", "OP"]

/-- The rows of the dataframe built by `TableGen.gen_df`: each input line
split on spaces, with the row index prepended as the `CNT` column. -/
def TableGen.gen_df_rows (lines : List (List Char)) : List (List (List Char)) :=
  lines.enum.map (fun p => natChars p.1 :: splitOnSpace p.2)

/-- The cell of the generated table in row `i` under the column named
`col` (pandas associates the k-th header with the k-th entry of each row). -/
def TableGen.cell (lines : List (List Char)) (i : ℕ) (col : String) : Option (List Char) :=
  match (TableGen.gen_df_rows lines).get? i with
  | some row => row.get? (TableGen.colHeaders.indexOf col)
  | none => none

/-! ## Lemmas about decimal numerals -/

theorem charVal_digitChar {d : ℕ} (h : d < 10) : charVal (Nat.digitChar d) = d := by
  interval_cases d <;> decide

theorem digitChar_isDigit {d : ℕ} (h : d < 10) : (Nat.digitChar d).isDigit = true := by
  interval_cases d <;> decide

theorem digit_not_special {c : Char} (h : c.isDigit = true) :
    c ≠ ' ' ∧ c ≠ '\n' ∧ c ≠ '.' ∧ c ≠ '-' := by
  refine ⟨?_, ?_, ?_, ?_⟩ <;> (rintro rfl; exact absurd h (by decide))

theorem parseNat_append_singleton (xs : List Char) (c : Char) :
    parseNat (xs ++ [c]) = 10 * parseNat xs + charVal c := by
  simp [parseNat, List.foldl_append]

theorem parseNat_natChars (n : ℕ) : parseNat (natChars n) = n := by
  induction n using Nat.strong_induction_on with
  | _ n ih =>
    rw [natChars_unfold]
    split
    · rename_i h
      simp [parseNat, charVal_digitChar h]
    · rename_i h
      rw [parseNat_append_singleton, ih (n / 10) (Nat.div_lt_self (by omega) (by omega)),
        charVal_digitChar (Nat.mod_lt _ (by omega))]
      omega

theorem natChars_ne_nil (n : ℕ) : natChars n ≠ [] := by
  rw [natChars_unfold]; split <;> simp

theorem natChars_digit (n : ℕ) : ∀ c ∈ natChars n, c.isDigit = true := by
  induction n using Nat.strong_induction_on with
  | _ n ih =>
    rw [natChars_unfold]
    split
    · rename_i h
      intro c hc
      simp only [List.mem_singleton] at hc
      exact hc ▸ digitChar_isDigit h
    · rename_i h
      intro c hc
      rcases List.mem_append.1 hc with h1 | h1
      · exact ih (n / 10) (Nat.div_lt_self (by omega) (by omega)) c h1
      · simp only [List.mem_singleton] at h1
        exact h1 ▸ digitChar_isDigit (Nat.mod_lt _ (by omega))

theorem intRepr_ne_nil (i : ℤ) : intRepr i ≠ [] := by
  unfold intRepr
  split
  · simp
  · exact natChars_ne_nil _

theorem intRepr_safe (i : ℤ) : ∀ c ∈ intRepr i, c ≠ ' ' ∧ c ≠ '\n' := by
  unfold intRepr
  split
  · intro c hc
    rcases List.mem_cons.1 hc with h1 | h1
    · subst h1; exact ⟨by decide, by decide⟩
    · have hd := natChars_digit _ c h1
      exact ⟨(digit_not_special hd).1, (digit_not_special hd).2.1⟩
  · intro c hc
    have hd := natChars_digit _ c hc
    exact ⟨(digit_not_special hd).1, (digit_not_special hd).2.1⟩

theorem parseInt_intRepr (i : ℤ) : parseInt (intRepr i) = i := by
  unfold intRepr
  split
  · rename_i h
    simp [parseInt, parseNat_natChars]
    rw [abs_of_neg h]
    ring
  · rename_i h
    obtain ⟨c, cs, hcc⟩ := List.exists_cons_of_ne_nil (natChars_ne_nil i.toNat)
    have hd : c.isDigit = true := natChars_digit _ c (hcc ▸ List.mem_cons_self c cs)
    have hne : ¬ ((natChars i.toNat).head? = some '-') := by
      rw [hcc]
      simp only [List.head?_cons, Option.some.injEq]
      exact (digit_not_special hd).2.2.2
    rw [parseInt, if_neg hne, parseNat_natChars]
    omega

/-! ## Lemmas about the one-decimal float format -/

theorem parseNat_singleton (c : Char) : parseNat [c] = charVal c := by
  simp [parseNat]

theorem takeWhile_append_all {p : Char → Bool} {A : List Char}
    (hA : ∀ c ∈ A, p c = true) {c0 : Char} (hc : p c0 = false) (B : List Char) :
    (A ++ c0 :: B).takeWhile p = A := by
  induction A with
  | nil => simp [List.takeWhile_cons, hc]
  | cons a as ih =>
    have ha : p a = true := hA a (List.mem_cons_self _ _)
    simp only [List.cons_append, List.takeWhile_cons, ha]
    rw [ih (fun c hc2 => hA c (List.mem_cons_of_mem _ hc2))]
    simp

theorem dropWhile_append_all {p : Char → Bool} {A : List Char}
    (hA : ∀ c ∈ A, p c = true) {c0 : Char} (hc : p c0 = false) (B : List Char) :
    (A ++ c0 :: B).dropWhile p = c0 :: B := by
  induction A with
  | nil => simp [List.dropWhile_cons, hc]
  | cons a as ih =>
    have ha : p a = true := hA a (List.mem_cons_self _ _)
    simp only [List.cons_append, List.dropWhile_cons, ha]
    exact ih (fun c hc2 => hA c (List.mem_cons_of_mem _ hc2))

theorem parsePosDec_canonical (m : ℕ) :
    parsePosDec (natChars (m / 10) ++ '.' :: [Nat.digitChar (m % 10)]) = (m : ℚ) / 10 := by
  have hA : ∀ c ∈ natChars (m / 10), (decide (c ≠ '.')) = true := fun c hc =>
    decide_eq_true ((digit_not_special (natChars_digit _ c hc)).2.2.1)
  have hc : (decide (('.' : Char) ≠ '.')) = false := by decide
  unfold parsePosDec
  rw [takeWhile_append_all hA hc, dropWhile_append_all hA hc, List.drop_one, List.tail_cons,
    parseNat_natChars, parseNat_singleton, charVal_digitChar (Nat.mod_lt m (by omega))]
  have h2 : 10 * ((m / 10 : ℕ) : ℚ) + ((m % 10 : ℕ) : ℚ) = (m : ℚ) := by
    exact_mod_cast congrArg (fun n : ℕ => (n : ℚ)) (Nat.div_add_mod m 10)
  have h3 : ((10 : ℚ) ^ ([Nat.digitChar (m % 10)].length)) = 10 := by
    simp
  rw [h3]
  linarith

theorem fmtOp_eq (k : ℤ) :
    fmtOp ((k : ℚ) / 10) =
      if k < 0 then
        '-' :: (natChars (k.natAbs / 10) ++ '.' :: [Nat.digitChar (k.natAbs % 10)])
      else natChars (k.toNat / 10) ++ '.' :: [Nat.digitChar (k.toNat % 10)] := by
  have hk : ⌊((k : ℚ) / 10) * 10⌋ = k := by
    rw [div_mul_cancel₀]
    · exact Int.floor_intCast k
    · norm_num
  unfold fmtOp
  rw [hk]

theorem parseDec_fmtOp (k : ℤ) : parseDec (fmtOp ((k : ℚ) / 10)) = (k : ℚ) / 10 := by
  rw [fmtOp_eq]
  by_cases hk : k < 0
  · rw [if_pos hk, parseDec,
      if_pos (show (('-' :: (natChars (k.natAbs / 10) ++ '.' :: [Nat.digitChar (k.natAbs % 10)])).head?
        = some '-') from rfl),
      List.drop_one, List.tail_cons, parsePosDec_canonical]
    have h1 : (k.natAbs : ℤ) = -k := by omega
    have habs : ((k.natAbs : ℕ) : ℚ) = -(k : ℚ) := by
      rw [← Int.cast_natCast, h1]
      push_cast
      ring
    rw [habs]
    ring
  · rw [if_neg hk]
    obtain ⟨c, cs, hcc⟩ := List.exists_cons_of_ne_nil (natChars_ne_nil (k.toNat / 10))
    have hd : c.isDigit = true := natChars_digit _ c (hcc ▸ List.mem_cons_self c cs)
    have hne : ¬ ((natChars (k.toNat / 10) ++ '.' :: [Nat.digitChar (k.toNat % 10)]).head? = some '-') := by
      rw [hcc]
      simp only [List.cons_append, List.head?_cons, Option.some.injEq]
      exact (digit_not_special hd).2.2.2
    rw [parseDec, if_neg hne, parsePosDec_canonical]
    have h1 : (k.toNat : ℤ) = k := by omega
    have h2 : ((k.toNat : ℕ) : ℚ) = (k : ℚ) := by
      rw [← Int.cast_natCast, h1]
    rw [h2]

theorem fmtOp_ne_nil (q : ℚ) : fmtOp q ≠ [] := by
  unfold fmtOp
  split
  · simp
  · intro h
    exact natChars_ne_nil _ (List.append_eq_nil.1 h).1

theorem fmtOp_safe (q : ℚ) : ∀ c ∈ fmtOp q, c ≠ ' ' ∧ c ≠ '\n' := by
  have hdig : ∀ a b : ℕ, b < 10 → ∀ c ∈ natChars a ++ '.' :: [Nat.digitChar b],
      c ≠ ' ' ∧ c ≠ '\n' := by
    intro a b hb c hc
    rcases List.mem_append.1 hc with h1 | h1
    · have hd := natChars_digit _ c h1
      exact ⟨(digit_not_special hd).1, (digit_not_special hd).2.1⟩
    · rcases List.mem_cons.1 h1 with h2 | h2
      · subst h2; exact ⟨by decide, by decide⟩
      · simp only [List.mem_singleton] at h2
        subst h2
        have hd := digitChar_isDigit hb
        exact ⟨(digit_not_special hd).1, (digit_not_special hd).2.1⟩
  unfold fmtOp
  split
  · intro c hc
    rcases List.mem_cons.1 hc with h1 | h1
    · subst h1; exact ⟨by decide, by decide⟩
    · exact hdig _ _ (by omega) c h1
  · intro c hc
    exact hdig _ _ (by omega) c hc

/-! ## The flatten-then-split round trip -/

theorem splitAux_space (acc rest : List Char) :
    splitAux acc (' ' :: rest) = acc.reverse :: splitAux [] rest := by
  simp [splitAux]

theorem splitAux_append {f : List Char} (hf : ∀ c ∈ f, c ≠ ' ') :
    ∀ acc rest, splitAux acc (f ++ rest) = splitAux (f.reverse ++ acc) rest := by
  induction f with
  | nil => intro acc rest; simp
  | cons a as ih =>
    intro acc rest
    have ha : a ≠ ' ' := hf a (List.mem_cons_self _ _)
    simp only [List.cons_append, splitAux, if_neg ha, List.append_eq]
    rw [ih (fun c h => hf c (List.mem_cons_of_mem _ h)) (a :: acc) rest]
    simp

theorem splitOnSpace_joinSep (fields : List (List Char)) (hne : fields ≠ [])
    (hs : ∀ f ∈ fields, ∀ c ∈ f, c ≠ ' ') :
    splitOnSpace (joinSep ' ' fields) = fields := by
  induction fields with
  | nil => exact absurd rfl hne
  | cons f fs ih =>
    cases fs with
    | nil =>
      show splitAux [] (joinSep ' ' [f]) = [f]
      have hf : ∀ c ∈ f, c ≠ ' ' := hs f (List.mem_cons_self _ _)
      rw [show joinSep ' ' [f] = f ++ [] from by simp [joinSep], splitAux_append hf]
      simp [splitAux]
    | cons g gs =>
      show splitAux [] (joinSep ' ' (f :: g :: gs)) = f :: g :: gs
      have hf : ∀ c ∈ f, c ≠ ' ' := hs f (List.mem_cons_self _ _)
      rw [show joinSep ' ' (f :: g :: gs) = f ++ ' ' :: joinSep ' ' (g :: gs) from rfl,
        splitAux_append hf, splitAux_space,
        show splitAux [] (joinSep ' ' (g :: gs)) = splitOnSpace (joinSep ' ' (g :: gs)) from rfl,
        ih (by simp) (fun f2 h2 => hs f2 (List.mem_cons_of_mem _ h2))]
      simp

theorem map_replNl_joinSep (fields : List (List Char)) :
    (joinSep '\n' fields).map replNl = joinSep ' ' (fields.map (List.map replNl)) := by
  induction fields with
  | nil => simp [joinSep]
  | cons f fs ih =>
    cases fs with
    | nil => simp [joinSep]
    | cons g gs =>
      rw [show joinSep '\n' (f :: g :: gs) = f ++ '\n' :: joinSep '\n' (g :: gs) from rfl,
        List.map_append, List.map_cons, ih]
      rfl

theorem map_replNl_eq_self {l : List Char} (h : ∀ c ∈ l, c ≠ '\n') : l.map replNl = l := by
  induction l with
  | nil => rfl
  | cons a as ih =>
    rw [List.map_cons, ih (fun c hc => h c (List.mem_cons_of_mem _ hc)),
      show replNl a = a from by simp [replNl, h a (List.mem_cons_self _ _)]]

theorem fieldStrs_safe (s : RandomShape) :
    ∀ f ∈ s.fieldStrs, ∀ c ∈ f, c ≠ ' ' ∧ c ≠ '\n' := by
  intro f hf
  simp only [RandomShape.fieldStrs, List.mem_cons, List.not_mem_nil, or_false] at hf
  rcases hf with h | h | h | h | h | h | h | h | h | h | h | h <;> subst h <;>
    first
      | exact fun c hc => intRepr_safe _ c hc
      | exact fun c hc => fmtOp_safe _ c hc

theorem splitOnSpace_as_Part2_line (s : RandomShape) :
    splitOnSpace s.as_Part2_line = s.fieldStrs := by
  unfold RandomShape.as_Part2_line RandomShape.pyStr
  rw [map_replNl_joinSep]
  have hmap : ∀ f ∈ s.fieldStrs, List.map replNl f = id f := fun f hf =>
    map_replNl_eq_self (fun c hc => (fieldStrs_safe s f hf c hc).2)
  rw [List.map_congr_left hmap, List.map_id]
  exact splitOnSpace_joinSep _ (by simp [RandomShape.fieldStrs])
    (fun f hf c hc => (fieldStrs_safe s f hf c hc).1)

/-- The flatten-then-reconstruct round trip of `as_svg`: when the opacity
is an exact tenth (as every value produced by `round(-, 1)` is), the parsed
data is precisely the attributes in constructor order. -/
theorem reconData_eq (s : RandomShape) (k : ℤ) (hop : s.opacity = (k : ℚ) / 10) :
    s.reconData = ([s.x, s.y, s.radius, s.width, s.height, s.rx, s.ry,
      s.color_r, s.color_g, s.color_b], s.opacity) := by
  unfold RandomShape.reconData
  rw [splitOnSpace_as_Part2_line]
  simp only [RandomShape.fieldStrs, List.drop_succ_cons, List.drop_zero, List.dropLast,
    List.map_cons, List.map_nil, List.getLastD, parseInt_intRepr, List.getLast]
  rw [hop, parseDec_fmtOp]

/-! ## Bounds for round-half-to-even -/

theorem abs_rhe_sub (x : ℚ) : |(rhe x : ℚ) - x| ≤ 1 / 2 := by
  unfold rhe
  split
  · rename_i h
    split
    · rw [abs_sub_comm, h, abs_of_nonneg (by norm_num : (0 : ℚ) ≤ 1 / 2)]
    · push_cast
      have h2 : ((⌊x⌋ : ℚ) + 1) - x = 1 / 2 := by linarith
      rw [h2, abs_of_nonneg (by norm_num : (0 : ℚ) ≤ 1 / 2)]
  · rw [abs_sub_comm]
    exact abs_sub_round x

theorem abs_round1_sub (q : ℚ) : |round1 q - q| ≤ 1 / 20 := by
  unfold round1
  have h := abs_rhe_sub (q * 10)
  rw [show (rhe (q * 10) : ℚ) / 10 - q = ((rhe (q * 10) : ℚ) - q * 10) / 10 from by ring,
    abs_div, abs_of_nonneg (by norm_num : (0 : ℚ) ≤ 10)]
  linarith

theorem round1_bounds {lo hi q : ℚ} (h1 : lo ≤ q) (h2 : q ≤ hi) :
    lo - 1 / 20 ≤ round1 q ∧ round1 q ≤ hi + 1 / 20 := by
  have h := abs_round1_sub q
  rw [abs_le] at h
  exact ⟨by linarith [h.1], by linarith [h.2]⟩

theorem getD_mem {l : List ℤ} {n : ℕ} (h : n < l.length) : l.getD n 0 ∈ l := by
  induction l generalizing n with
  | nil => simp at h
  | cons a as ih =>
    cases n with
    | zero => simp
    | succ m =>
      rw [List.getD_cons_succ]
      exact List.mem_cons_of_mem _ (ih (by simpa using h))

/-! ## Claims -/

/-- Claim C1's counterexample configuration: the default config on a
100×100 canvas after `op_amt(1)` (opacity range `(0.33, 0.66)`). -/
def cfgC1 : PyArtConfig := (PyArtConfig.init ⟨100, 100⟩).op_amt 1

/-- Claim C1's counterexample draws: every integer draw at its lower
bound; the uniform opacity draw is exactly 0.33, inside the configured
range. -/
def dC1 : Draws :=
  { shape_choice := 0, radius := 0, width := 10, height := 10, rx := 10, ry := 10,
    x := 0, y := 0, color_r := 0, color_g := 0, color_b := 0, opacity_u := 33 / 100 }

/-- C1, counterexample: with the default config narrowed by
`SetOpacityLevel(1)` — every configured range satisfying `low ≤ high` — and
a valid batch of draws whose uniform opacity draw is exactly 0.33, the
generated opacity `round(0.33, 1) = 0.3` lies outside the configured
opacity range `[0.33, 0.66]`, so not every generated attribute lies within
its configured range. -/
theorem C1_opacity_counterexample :
    (cfgC1.x_range.1 ≤ cfgC1.x_range.2 ∧ cfgC1.y_range.1 ≤ cfgC1.y_range.2 ∧
     cfgC1.radius_range.1 ≤ cfgC1.radius_range.2 ∧
     cfgC1.rxy_range.1 ≤ cfgC1.rxy_range.2 ∧
     cfgC1.w_h_range.1 ≤ cfgC1.w_h_range.2 ∧
     cfgC1.r_range.1 ≤ cfgC1.r_range.2 ∧ cfgC1.g_range.1 ≤ cfgC1.g_range.2 ∧
     cfgC1.b_range.1 ≤ cfgC1.b_range.2 ∧
     cfgC1.opacity_range.1 ≤ cfgC1.opacity_range.2) ∧
    ValidDraws cfgC1 dC1 ∧
    (generate_shape cfgC1 dC1).opacity = 3 / 10 ∧
    ¬ inRQ cfgC1.opacity_range (generate_shape cfgC1 dC1).opacity := by
  with_unfolding_all decide

/-- C1 (amended): for valid draws (drawn values within the configured
ranges, as Python's `random` guarantees when each range has `low ≤ high`),
every integer attribute of the generated shape lies within its configured
range and the shape kind is an allowed kind; the opacity, however, is only
guaranteed to lie within the configured range widened by the rounding
error 0.05 on each side, since `round(-, 1)` is applied after drawing. -/
theorem C1_ranges (cfg : PyArtConfig) (d : Draws) (h : ValidDraws cfg d) :
    (generate_shape cfg d).shape_type ∈ cfg.shape_type_range ∧
    inR cfg.radius_range (generate_shape cfg d).radius ∧
    inR cfg.w_h_range (generate_shape cfg d).width ∧
    inR cfg.w_h_range (generate_shape cfg d).height ∧
    inR cfg.rxy_range (generate_shape cfg d).rx ∧
    inR cfg.rxy_range (generate_shape cfg d).ry ∧
    inR cfg.x_range (generate_shape cfg d).x ∧
    inR cfg.y_range (generate_shape cfg d).y ∧
    inR cfg.r_range (generate_shape cfg d).color_r ∧
    inR cfg.g_range (generate_shape cfg d).color_g ∧
    inR cfg.b_range (generate_shape cfg d).color_b ∧
    cfg.opacity_range.1 - 1 / 20 ≤ (generate_shape cfg d).opacity ∧
    (generate_shape cfg d).opacity ≤ cfg.opacity_range.2 + 1 / 20 := by
  obtain ⟨h0, h1, h2, h3, h4, h5, h6, h7, h8, h9, h10, h11⟩ := h
  exact ⟨getD_mem h0, h1, h2, h3, h4, h5, h6, h7, h8, h9, h10,
    (round1_bounds h11.1 h11.2).1, (round1_bounds h11.1 h11.2).2⟩

/-- Witness for `C1_ranges` at the concrete config and draws of the
counterexample. -/
theorem C1_ranges_witness :
    ValidDraws cfgC1 dC1 ∧ inR cfgC1.radius_range (generate_shape cfgC1 dC1).radius :=
  ⟨by with_unfolding_all decide, (C1_ranges cfgC1 dC1 (by with_unfolding_all decide)).2.1⟩

/-- `as_svg` on a shape of kind circle is the circle draw of the
reconstructed data. -/
theorem as_svg_circle (s : RandomShape) (h0 : s.shape_type = 0) (k : ℤ)
    (hop : s.opacity = (k : ℚ) / 10) :
    s.as_svg = (CircleShape.mk s.x s.y s.radius s.width s.height s.rx s.ry
      s.color_r s.color_g s.color_b s.opacity).draw 2 := by
  unfold RandomShape.as_svg
  rw [if_pos h0, reconData_eq s k hop]
  rfl

/-- Claim C2's concrete configuration: a 0×0 canvas (positions pinned to
0), radius range (5,5), red (255,255), green and blue (0,0), opacity
(0.5, 0.5), then `shapes(0, 1)` restricting to circles only. -/
def cfgC2 : PyArtConfig :=
  (PyArtConfig.initFull ⟨0, 0⟩ [0, 1, 2] (5, 5) (10, 30) (10, 100)
    (255, 255) (0, 0) (0, 0) (1 / 2, 1 / 2)).shapes 0 1

/-- Claim C2's concrete draws. -/
def dC2 : Draws :=
  { shape_choice := 0, radius := 5, width := 10, height := 10, rx := 10, ry := 10,
    x := 0, y := 0, color_r := 255, color_g := 0, color_b := 0, opacity_u := 1 / 2 }

set_option maxRecDepth 8000 in
set_option maxHeartbeats 1000000 in
/-- C2: with radius range (5,5), both position ranges (0,0), color ranges
pinning rgb(255,0,0), opacity range (0.5,0.5) and the allowed-kind list
narrowed to `[0]` (circle), any valid batch of draws yields a circle of
radius 5 at (0,0) with color (255,0,0) and opacity 0.5, and `as_svg`
renders exactly the 6-space indentation prefix followed by the circle
element. -/
theorem C2_end_to_end (cfg : PyArtConfig) (d : Draws)
    (hst : cfg.shape_type_range = [0])
    (hrad : cfg.radius_range = (5, 5))
    (hx : cfg.x_range = (0, 0)) (hy : cfg.y_range = (0, 0))
    (hr : cfg.r_range = (255, 255)) (hg : cfg.g_range = (0, 0)) (hb : cfg.b_range = (0, 0))
    (hopr : cfg.opacity_range = (1 / 2, 1 / 2))
    (hv : ValidDraws cfg d) :
    (generate_shape cfg d).shape_type = 0 ∧
    (generate_shape cfg d).radius = 5 ∧
    (generate_shape cfg d).x = 0 ∧
    (generate_shape cfg d).y = 0 ∧
    (generate_shape cfg d).color_r = 255 ∧
    (generate_shape cfg d).color_g = 0 ∧
    (generate_shape cfg d).color_b = 0 ∧
    (generate_shape cfg d).opacity = 1 / 2 ∧
    (generate_shape cfg d).as_svg =
      ("      <circle cx=\"0\" cy=\"0\" r=\"5\" fill=\"rgb(255, 0, 0)\""
        ++ " fill-opacity=\"0.5\"></circle>").toList := by
  obtain ⟨h0, h1, h2, h3, h4, h5, h6, h7, h8, h9, h10, h11⟩ := hv
  rw [hst] at h0
  rw [hrad] at h1
  rw [hx] at h6
  rw [hy] at h7
  rw [hr] at h8
  rw [hg] at h9
  rw [hb] at h10
  rw [hopr] at h11
  obtain ⟨h1a, h1b⟩ := h1
  obtain ⟨h6a, h6b⟩ := h6
  obtain ⟨h7a, h7b⟩ := h7
  obtain ⟨h8a, h8b⟩ := h8
  obtain ⟨h9a, h9b⟩ := h9
  obtain ⟨h10a, h10b⟩ := h10
  have hchoice : d.shape_choice = 0 := by
    simp only [List.length_singleton] at h0
    omega
  have hdr : d.radius = 5 := by omega
  have hdx : d.x = 0 := by omega
  have hdy : d.y = 0 := by omega
  have hdcr : d.color_r = 255 := by omega
  have hdcg : d.color_g = 0 := by omega
  have hdcb : d.color_b = 0 := by omega
  have hdu : d.opacity_u = 1 / 2 := le_antisymm h11.2 h11.1
  have hround : round1 ((1 : ℚ) / 2) = 1 / 2 := by with_unfolding_all decide
  have hs : generate_shape cfg d =
      ⟨0, 5, d.width, d.height, d.rx, d.ry, 0, 0, 255, 0, 0, 1 / 2⟩ := by
    unfold generate_shape
    rw [hst, hchoice, hdr, hdx, hdy, hdcr, hdcg, hdcb, hdu, hround]
    rfl
  refine ⟨by rw [hs], by rw [hs], by rw [hs], by rw [hs], by rw [hs], by rw [hs],
    by rw [hs], by rw [hs], ?_⟩
  rw [as_svg_circle (generate_shape cfg d) (by rw [hs]) 5 (by rw [hs]; norm_num), hs]
  have hfmt : fmtOp ((1 : ℚ) / 2) = ['0', '.', '5'] := by
    rw [show ((1 : ℚ) / 2) = ((5 : ℤ) : ℚ) / 10 from by norm_num, fmtOp_eq]
    rfl
  simp only [CircleShape.draw]
  rw [hfmt]
  rfl

set_option maxRecDepth 8000 in
set_option maxHeartbeats 1000000 in
/-- Witness for `C2_end_to_end` at the concrete `cfgC2` and `dC2`. -/
theorem C2_end_to_end_witness :
    ValidDraws cfgC2 dC2 ∧
    (generate_shape cfgC2 dC2).radius = 5 ∧
    (generate_shape cfgC2 dC2).as_svg =
      ("      <circle cx=\"0\" cy=\"0\" r=\"5\" fill=\"rgb(255, 0, 0)\""
        ++ " fill-opacity=\"0.5\"></circle>").toList := by
  have h := C2_end_to_end cfgC2 dC2 rfl rfl rfl rfl rfl rfl rfl rfl
    (by with_unfolding_all decide)
  exact ⟨by with_unfolding_all decide, h.2.1, h.2.2.2.2.2.2.2.2⟩


/-- Claim C3's concrete draws: index 0, every integer draw at a bound of
the default ranges, uniform opacity draw 0. -/
def dC3 : Draws :=
  { shape_choice := 0, radius := 0, width := 10, height := 10, rx := 10, ry := 10,
    x := 0, y := 0, color_r := 0, color_g := 0, color_b := 0, opacity_u := 0 }

/-- C3: for each kind k in {0,1,2}, `shapes(k, 1)` replaces the
allowed-kinds list with exactly `[k]` and `shapes(k, 0)` with the
two-element complement of {k} in {0,1,2}, touching no other field; any
call with an invalid kind, or with a mode other than 0 or 1, leaves the
config unchanged; and every shape sampled after `shapes(k, 1)` has kind
k. -/
theorem C3_shapes (cfg : PyArtConfig) (k : ℤ) (d : Draws) :
    (k = 0 ∨ k = 1 ∨ k = 2 →
      cfg.shapes k 1 = { cfg with shape_type_range := [k] } ∧
      cfg.shapes k 0 = { cfg with shape_type_range :=
        if k = 0 then [1, 2] else if k = 1 then [0, 2] else [0, 1] }) ∧
    (∀ amt : ℤ, ¬(k = 0 ∨ k = 1 ∨ k = 2) → cfg.shapes k amt = cfg) ∧
    (∀ amt : ℤ, amt ≠ 0 → amt ≠ 1 → cfg.shapes k amt = cfg) ∧
    (ValidDraws (cfg.shapes k 1) d → k = 0 ∨ k = 1 ∨ k = 2 →
      (generate_shape (cfg.shapes k 1) d).shape_type = k) := by
  refine ⟨?_, ?_, ?_, ?_⟩
  · intro hk
    rcases hk with rfl | rfl | rfl <;> exact ⟨rfl, rfl⟩
  · intro amt h
    unfold PyArtConfig.shapes
    rw [if_neg h]
  · intro amt h0 h1
    unfold PyArtConfig.shapes
    split_ifs <;> rfl
  · intro hv hk
    have hr : (cfg.shapes k 1).shape_type_range = [k] := by
      rcases hk with rfl | rfl | rfl <;> rfl
    have h0 := hv.1
    rw [hr] at h0
    simp only [List.length_singleton, Nat.lt_one_iff] at h0
    show (cfg.shapes k 1).shape_type_range.getD d.shape_choice 0 = k
    rw [hr, h0]
    rfl

/-- Witness for `C3_shapes` at the default config on a 10×10 canvas, with
kind 1 (and invalid kind 5, invalid mode 7). -/
theorem C3_shapes_witness :
    (PyArtConfig.init ⟨10, 10⟩).shapes 1 1 =
      { PyArtConfig.init ⟨10, 10⟩ with shape_type_range := [1] } ∧
    (PyArtConfig.init ⟨10, 10⟩).shapes 5 3 = PyArtConfig.init ⟨10, 10⟩ ∧
    (PyArtConfig.init ⟨10, 10⟩).shapes 1 7 = PyArtConfig.init ⟨10, 10⟩ ∧
    (generate_shape ((PyArtConfig.init ⟨10, 10⟩).shapes 1 1) dC3).shape_type = 1 := by
  refine ⟨((C3_shapes (PyArtConfig.init ⟨10, 10⟩) 1 dC3).1 (by norm_num)).1,
    (C3_shapes (PyArtConfig.init ⟨10, 10⟩) 5 dC3).2.1 3 (by norm_num),
    (C3_shapes (PyArtConfig.init ⟨10, 10⟩) 1 dC3).2.2.1 7 (by norm_num) (by norm_num),
    (C3_shapes (PyArtConfig.init ⟨10, 10⟩) 1 dC3).2.2.2
      (by with_unfolding_all decide) (by norm_num)⟩

/-- The nine (shape, size) keys of the `ranges` dict of
`PyArtConfig.size`. -/
def sizeKeys : List (Char × Char) :=
  [('c', 's'), ('c', 'm'), ('c', 'l'), ('r', 's'), ('r', 'm'), ('r', 'l'),
   ('e', 's'), ('e', 'm'), ('e', 'l')]

/-- C4: each of the nine (kind, sizeClass) pairs replaces exactly the
size-relevant range of that kind with the documented band and touches
nothing else; a pair outside the nine mutates nothing; and
`size({'c': 'l'})` on a default config sets `radius_range` to (66, 100). -/
theorem C4_size (cfg : PyArtConfig) (c : SvgCanvasC) (a b : Char) :
    cfg.size [('c', 's')] = { cfg with radius_range := (0, 33) } ∧
    cfg.size [('c', 'm')] = { cfg with radius_range := (33, 66) } ∧
    cfg.size [('c', 'l')] = { cfg with radius_range := (66, 100) } ∧
    cfg.size [('r', 's')] = { cfg with w_h_range := (10, 40) } ∧
    cfg.size [('r', 'm')] = { cfg with w_h_range := (40, 70) } ∧
    cfg.size [('r', 'l')] = { cfg with w_h_range := (70, 100) } ∧
    cfg.size [('e', 's')] = { cfg with rxy_range := (10, 17) } ∧
    cfg.size [('e', 'm')] = { cfg with rxy_range := (17, 24) } ∧
    cfg.size [('e', 'l')] = { cfg with rxy_range := (24, 30) } ∧
    ((PyArtConfig.init c).size [('c', 'l')]).radius_range = (66, 100) ∧
    ((a, b) ∉ sizeKeys → cfg.size [(a, b)] = cfg) := by
  refine ⟨rfl, rfl, rfl, rfl, rfl, rfl, rfl, rfl, rfl, rfl, ?_⟩
  intro hnot
  have hnone : sizeRanges (a, b) = none := by
    unfold sizeRanges
    split_ifs with h1 h2 h3 h4 h5 h6 h7 h8 h9
    · exact absurd (by rw [h1]; decide) hnot
    · exact absurd (by rw [h2]; decide) hnot
    · exact absurd (by rw [h3]; decide) hnot
    · exact absurd (by rw [h4]; decide) hnot
    · exact absurd (by rw [h5]; decide) hnot
    · exact absurd (by rw [h6]; decide) hnot
    · exact absurd (by rw [h7]; decide) hnot
    · exact absurd (by rw [h8]; decide) hnot
    · exact absurd (by rw [h9]; decide) hnot
    · rfl
  show PyArtConfig.sizeStep cfg (a, b) = cfg
  unfold PyArtConfig.sizeStep
  rw [hnone]

/-- Witness for `C4_size` at the default config on a 20×20 canvas with the
unknown pair ('z', 'q'). -/
theorem C4_size_witness :
    (PyArtConfig.init ⟨20, 20⟩).size [('c', 'l')] =
      { PyArtConfig.init ⟨20, 20⟩ with radius_range := (66, 100) } ∧
    (PyArtConfig.init ⟨20, 20⟩).size [('z', 'q')] = PyArtConfig.init ⟨20, 20⟩ := by
  have h := C4_size (PyArtConfig.init ⟨20, 20⟩) ⟨20, 20⟩ 'z' 'q'
  exact ⟨h.2.2.1, h.2.2.2.2.2.2.2.2.2.2 (by decide)⟩

/-- `color_ranges[amount]` raises IndexError exactly when `amount` is 5 or
more, or -6 or less (the list has 5 entries and Python indexes negatives
from the back). -/
theorem pyListGet_out (lv : ℤ) (h : 5 ≤ lv ∨ lv ≤ -6) : pyListGet color_ranges lv = none := by
  have hlen : color_ranges.length = 5 := rfl
  unfold pyListGet
  split_ifs with h1 h2
  · refine List.get?_eq_none.2 ?_
    rw [hlen]
    omega
  · exfalso
    rw [hlen] at h2
    omega
  · rfl

/-- C5 (amended): for each channel in {'r','g','b'} and level in
{0,1,2,3,4}, `color({channel: level})` sets exactly that channel's range
to the documented band; a level in {-5,...,-1} does not raise but indexes
the band list from the back (Python negative indexing), setting band
`level + 5`; a level of 5 or more, or -6 or less, raises IndexError with
the config unchanged; an unknown channel key is a no-op. -/
theorem C5_color (cfg : PyArtConfig) (a : Char) (lv : ℤ) :
    (cfg.color [('r', 0)] = .ok { cfg with r_range := (0, 0) } ∧
     cfg.color [('r', 1)] = .ok { cfg with r_range := (0, 85) } ∧
     cfg.color [('r', 2)] = .ok { cfg with r_range := (85, 170) } ∧
     cfg.color [('r', 3)] = .ok { cfg with r_range := (170, 255) } ∧
     cfg.color [('r', 4)] = .ok { cfg with r_range := (255, 255) }) ∧
    (cfg.color [('g', 0)] = .ok { cfg with g_range := (0, 0) } ∧
     cfg.color [('g', 1)] = .ok { cfg with g_range := (0, 85) } ∧
     cfg.color [('g', 2)] = .ok { cfg with g_range := (85, 170) } ∧
     cfg.color [('g', 3)] = .ok { cfg with g_range := (170, 255) } ∧
     cfg.color [('g', 4)] = .ok { cfg with g_range := (255, 255) }) ∧
    (cfg.color [('b', 0)] = .ok { cfg with b_range := (0, 0) } ∧
     cfg.color [('b', 1)] = .ok { cfg with b_range := (0, 85) } ∧
     cfg.color [('b', 2)] = .ok { cfg with b_range := (85, 170) } ∧
     cfg.color [('b', 3)] = .ok { cfg with b_range := (170, 255) } ∧
     cfg.color [('b', 4)] = .ok { cfg with b_range := (255, 255) }) ∧
    (∀ lv2 : ℤ, -5 ≤ lv2 → lv2 ≤ -1 →
      cfg.color [('r', lv2)] =
        .ok { cfg with r_range := (color_ranges.get? (lv2 + 5).toNat).getD (0, 0) }) ∧
    (∀ lv2 : ℤ, -5 ≤ lv2 → lv2 ≤ -1 →
      cfg.color [('g', lv2)] =
        .ok { cfg with g_range := (color_ranges.get? (lv2 + 5).toNat).getD (0, 0) }) ∧
    (∀ lv2 : ℤ, -5 ≤ lv2 → lv2 ≤ -1 →
      cfg.color [('b', lv2)] =
        .ok { cfg with b_range := (color_ranges.get? (lv2 + 5).toNat).getD (0, 0) }) ∧
    (∀ lv2 : ℤ, 5 ≤ lv2 ∨ lv2 ≤ -6 → cfg.color [('r', lv2)] = .error cfg) ∧
    (∀ lv2 : ℤ, 5 ≤ lv2 ∨ lv2 ≤ -6 → cfg.color [('g', lv2)] = .error cfg) ∧
    (∀ lv2 : ℤ, 5 ≤ lv2 ∨ lv2 ≤ -6 → cfg.color [('b', lv2)] = .error cfg) ∧
    (a ≠ 'r' → a ≠ 'g' → a ≠ 'b' → cfg.color [(a, lv)] = .ok cfg) := by
  refine ⟨⟨rfl, rfl, rfl, rfl, rfl⟩, ⟨rfl, rfl, rfl, rfl, rfl⟩, ⟨rfl, rfl, rfl, rfl, rfl⟩,
    ?_, ?_, ?_, ?_, ?_, ?_, ?_⟩
  · intro lv2 hl hr
    interval_cases lv2 <;> rfl
  · intro lv2 hl hr
    interval_cases lv2 <;> rfl
  · intro lv2 hl hr
    interval_cases lv2 <;> rfl
  · intro lv2 h
    have hstep : cfg.colorStep 'r' lv2 = .error cfg := by
      unfold PyArtConfig.colorStep
      rw [if_pos (rfl : ('r' : Char) = 'r'), pyListGet_out lv2 h]
    simp only [PyArtConfig.color]
    rw [hstep]
  · intro lv2 h
    have hstep : cfg.colorStep 'g' lv2 = .error cfg := by
      unfold PyArtConfig.colorStep
      rw [if_neg (by decide : ¬ ('g' : Char) = 'r'), if_pos (rfl : ('g' : Char) = 'g'),
        pyListGet_out lv2 h]
    simp only [PyArtConfig.color]
    rw [hstep]
  · intro lv2 h
    have hstep : cfg.colorStep 'b' lv2 = .error cfg := by
      unfold PyArtConfig.colorStep
      rw [if_neg (by decide : ¬ ('b' : Char) = 'r'), if_neg (by decide : ¬ ('b' : Char) = 'g'),
        if_pos (rfl : ('b' : Char) = 'b'), pyListGet_out lv2 h]
    simp only [PyArtConfig.color]
    rw [hstep]
  · intro h1 h2 h3
    have hstep : cfg.colorStep a lv = .ok cfg := by
      unfold PyArtConfig.colorStep
      rw [if_neg h1, if_neg h2, if_neg h3]
    simp only [PyArtConfig.color]
    rw [hstep]

/-- C5, counterexample: `color({'r': -1})` on a default config does not
raise — Python list indexing accepts -1 and returns the last band — so the
call succeeds and sets the red range to (255, 255), where the claim
demands an error for every integer level outside {0,...,4}. -/
theorem C5_negative_level_counterexample :
    (PyArtConfig.init ⟨1, 1⟩).color [('r', -1)] =
      .ok { PyArtConfig.init ⟨1, 1⟩ with r_range := (255, 255) } := rfl

/-- Witness for `C5_color` at the default config on a 1×1 canvas: level
-1 for the negative-index clause on each channel, level 9 for the error
clause, and the unknown channel 'z'. -/
theorem C5_color_witness :
    (PyArtConfig.init ⟨1, 1⟩).color [('r', 4)] =
      .ok { PyArtConfig.init ⟨1, 1⟩ with r_range := (255, 255) } ∧
    (PyArtConfig.init ⟨1, 1⟩).color [('r', -1)] =
      .ok { PyArtConfig.init ⟨1, 1⟩ with r_range :=
        (color_ranges.get? ((-1 : ℤ) + 5).toNat).getD (0, 0) } ∧
    (PyArtConfig.init ⟨1, 1⟩).color [('g', -1)] =
      .ok { PyArtConfig.init ⟨1, 1⟩ with g_range :=
        (color_ranges.get? ((-1 : ℤ) + 5).toNat).getD (0, 0) } ∧
    (PyArtConfig.init ⟨1, 1⟩).color [('b', -5)] =
      .ok { PyArtConfig.init ⟨1, 1⟩ with b_range :=
        (color_ranges.get? ((-5 : ℤ) + 5).toNat).getD (0, 0) } ∧
    (PyArtConfig.init ⟨1, 1⟩).color [('g', 9)] = .error (PyArtConfig.init ⟨1, 1⟩) ∧
    (PyArtConfig.init ⟨1, 1⟩).color [('z', 2)] = .ok (PyArtConfig.init ⟨1, 1⟩) := by
  have h := C5_color (PyArtConfig.init ⟨1, 1⟩) 'z' 2
  exact ⟨h.1.2.2.2.2, h.2.2.2.1 (-1) (by norm_num) (by norm_num),
    h.2.2.2.2.1 (-1) (by norm_num) (by norm_num),
    h.2.2.2.2.2.1 (-5) (by norm_num) (by norm_num),
    h.2.2.2.2.2.2.2.1 9 (Or.inl (by norm_num)),
    h.2.2.2.2.2.2.2.2.2 (by decide) (by decide) (by decide)⟩

/-- C6: `op_amt(level)` for level in {0,1,2,3} sets exactly the opacity
range to the documented band; any other integer level — including 4,
which the randomized driver can pass — leaves the config unchanged. -/
theorem C6_op_amt (cfg : PyArtConfig) :
    cfg.op_amt 0 = { cfg with opacity_range := (0, 33 / 100) } ∧
    cfg.op_amt 1 = { cfg with opacity_range := (33 / 100, 66 / 100) } ∧
    cfg.op_amt 2 = { cfg with opacity_range := (66 / 100, 1) } ∧
    cfg.op_amt 3 = { cfg with opacity_range := (1, 1) } ∧
    cfg.op_amt 4 = cfg ∧
    (∀ amt : ℤ, amt ≠ 0 → amt ≠ 1 → amt ≠ 2 → amt ≠ 3 → cfg.op_amt amt = cfg) := by
  refine ⟨rfl, rfl, rfl, rfl, rfl, ?_⟩
  intro amt h0 h1 h2 h3
  unfold PyArtConfig.op_amt
  rw [if_neg (by omega : ¬(amt = 0 ∨ amt = 1 ∨ amt = 2 ∨ amt = 3))]

/-- Witness for `C6_op_amt` at the default config on a 2×3 canvas and
level 9. -/
theorem C6_op_amt_witness :
    (PyArtConfig.init ⟨2, 3⟩).op_amt 1 =
      { PyArtConfig.init ⟨2, 3⟩ with opacity_range := (33 / 100, 66 / 100) } ∧
    (PyArtConfig.init ⟨2, 3⟩).op_amt 9 = PyArtConfig.init ⟨2, 3⟩ := by
  have h := C6_op_amt (PyArtConfig.init ⟨2, 3⟩)
  exact ⟨h.2.1, h.2.2.2.2.2 9 (by norm_num) (by norm_num) (by norm_num) (by norm_num)⟩

/-- C7: a freshly initialized config has x range (0, width), y range
(0, height), radius (0,100), rx/ry (10,30), width/height (10,100), each
color channel (0,255), opacity (0,1), and all three shape kinds allowed. -/
theorem C7_defaults (c : SvgCanvasC) :
    PyArtConfig.init c =
      { shape_type_range := [0, 1, 2], x_range := (0, c.width), y_range := (0, c.height),
        radius_range := (0, 100), rxy_range := (10, 30), w_h_range := (10, 100),
        r_range := (0, 255), g_range := (0, 255), b_range := (0, 255),
        opacity_range := (0, 1) } := rfl

/-- One preset-mutator call on a `PyArtConfig`, with its arguments. -/
inductive PresetCall where
  | shapesC (shape amt : ℤ)
  | sizeC (l : List (Char × Char))
  | colorC (l : List (Char × ℤ))
  | opC (amt : ℤ)

/-- Run one preset call; for `color` the object keeps the mutations applied
before a possible IndexError, so the state after the call is the payload of
either outcome. -/
def applyCall (cfg : PyArtConfig) : PresetCall → PyArtConfig
  | .shapesC s a => cfg.shapes s a
  | .sizeC l => cfg.size l
  | .colorC l =>
    match cfg.color l with
    | .ok c2 => c2
    | .error c2 => c2
  | .opC a => cfg.op_amt a

/-- Run a sequence of preset calls left to right. -/
def applyCalls (cfg : PyArtConfig) (calls : List PresetCall) : PyArtConfig :=
  calls.foldl applyCall cfg

theorem colorStep_ok_presXY {cfg c2 : PyArtConfig} {ch : Char} {a : ℤ}
    (h : cfg.colorStep ch a = .ok c2) :
    c2.x_range = cfg.x_range ∧ c2.y_range = cfg.y_range := by
  unfold PyArtConfig.colorStep at h
  split_ifs at h
  · cases hh : pyListGet color_ranges a <;> rw [hh] at h
    · simp at h
    · injection h with h2
      subst h2
      exact ⟨rfl, rfl⟩
  · cases hh : pyListGet color_ranges a <;> rw [hh] at h
    · simp at h
    · injection h with h2
      subst h2
      exact ⟨rfl, rfl⟩
  · cases hh : pyListGet color_ranges a <;> rw [hh] at h
    · simp at h
    · injection h with h2
      subst h2
      exact ⟨rfl, rfl⟩
  · injection h with h2
    subst h2
    exact ⟨rfl, rfl⟩

theorem colorStep_err_presXY {cfg c2 : PyArtConfig} {ch : Char} {a : ℤ}
    (h : cfg.colorStep ch a = .error c2) :
    c2.x_range = cfg.x_range ∧ c2.y_range = cfg.y_range := by
  unfold PyArtConfig.colorStep at h
  split_ifs at h
  · cases hh : pyListGet color_ranges a <;> rw [hh] at h
    · injection h with h2
      subst h2
      exact ⟨rfl, rfl⟩
    · simp at h
  · cases hh : pyListGet color_ranges a <;> rw [hh] at h
    · injection h with h2
      subst h2
      exact ⟨rfl, rfl⟩
    · simp at h
  · cases hh : pyListGet color_ranges a <;> rw [hh] at h
    · injection h with h2
      subst h2
      exact ⟨rfl, rfl⟩
    · simp at h

theorem color_presXY : ∀ (l : List (Char × ℤ)) (cfg c2 : PyArtConfig),
    (cfg.color l = .ok c2 ∨ cfg.color l = .error c2) →
    c2.x_range = cfg.x_range ∧ c2.y_range = cfg.y_range := by
  intro l
  induction l with
  | nil =>
    intro cfg c2 h
    rcases h with h | h
    · injection h with h2
      subst h2
      exact ⟨rfl, rfl⟩
    · simp [PyArtConfig.color] at h
  | cons p ps ih =>
    intro cfg c2 h
    obtain ⟨c, a⟩ := p
    have hunf : cfg.color ((c, a) :: ps) =
        match cfg.colorStep c a with
        | .ok cfg2 => cfg2.color ps
        | .error cfg2 => .error cfg2 := rfl
    rw [hunf] at h
    cases hh : cfg.colorStep c a with
    | ok cfg2 =>
      rw [hh] at h
      have h1 := colorStep_ok_presXY hh
      have h2 := ih cfg2 c2 h
      exact ⟨h2.1.trans h1.1, h2.2.trans h1.2⟩
    | error cfg2 =>
      rw [hh] at h
      have h1 := colorStep_err_presXY hh
      rcases h with h | h
      · simp at h
      · injection h with h3
        subst h3
        exact h1

theorem applyCall_presXY (cfg : PyArtConfig) (call : PresetCall) :
    (applyCall cfg call).x_range = cfg.x_range ∧ (applyCall cfg call).y_range = cfg.y_range := by
  cases call with
  | shapesC s a =>
    show (cfg.shapes s a).x_range = cfg.x_range ∧ (cfg.shapes s a).y_range = cfg.y_range
    unfold PyArtConfig.shapes
    split_ifs <;> exact ⟨rfl, rfl⟩
  | sizeC l =>
    show (cfg.size l).x_range = cfg.x_range ∧ (cfg.size l).y_range = cfg.y_range
    induction l generalizing cfg with
    | nil => exact ⟨rfl, rfl⟩
    | cons p ps ih =>
      have hstep : (cfg.sizeStep p).x_range = cfg.x_range ∧
          (cfg.sizeStep p).y_range = cfg.y_range := by
        unfold PyArtConfig.sizeStep
        cases sizeRanges p with
        | none => exact ⟨rfl, rfl⟩
        | some fv =>
          obtain ⟨f, v⟩ := fv
          cases f <;> exact ⟨rfl, rfl⟩
      have h2 := ih (cfg.sizeStep p)
      rw [show cfg.size (p :: ps) = (cfg.sizeStep p).size ps from rfl]
      exact ⟨h2.1.trans hstep.1, h2.2.trans hstep.2⟩
  | colorC l =>
    show (match cfg.color l with | .ok c2 => c2 | .error c2 => c2).x_range = cfg.x_range ∧
      (match cfg.color l with | .ok c2 => c2 | .error c2 => c2).y_range = cfg.y_range
    cases hh : cfg.color l with
    | ok c2 => exact color_presXY l cfg c2 (Or.inl hh)
    | error c2 => exact color_presXY l cfg c2 (Or.inr hh)
  | opC a =>
    show (cfg.op_amt a).x_range = cfg.x_range ∧ (cfg.op_amt a).y_range = cfg.y_range
    unfold PyArtConfig.op_amt
    split_ifs
    · cases opacity_ranges.get? a.toNat <;> exact ⟨rfl, rfl⟩
    · exact ⟨rfl, rfl⟩

theorem applyCalls_presXY (calls : List PresetCall) : ∀ cfg : PyArtConfig,
    (applyCalls cfg calls).x_range = cfg.x_range ∧
    (applyCalls cfg calls).y_range = cfg.y_range := by
  induction calls with
  | nil => intro cfg; exact ⟨rfl, rfl⟩
  | cons call rest ih =>
    intro cfg
    rw [show applyCalls cfg (call :: rest) = applyCalls (applyCall cfg call) rest from rfl]
    have h1 := applyCall_presXY cfg call
    have h2 := ih (applyCall cfg call)
    exact ⟨h2.1.trans h1.1, h2.2.trans h1.2⟩

/-- C8: no preset mutator (`shapes`, `size`, `color`, `op_amt`) ever writes
`x_range` or `y_range`: after any sequence of preset calls with any
arguments they equal their values before, and on a fresh config they equal
(0, canvas width) and (0, canvas height). -/
theorem C8_positions_invariant (cfg : PyArtConfig) (c : SvgCanvasC) (calls : List PresetCall) :
    (applyCalls cfg calls).x_range = cfg.x_range ∧
    (applyCalls cfg calls).y_range = cfg.y_range ∧
    (applyCalls (PyArtConfig.init c) calls).x_range = (0, c.width) ∧
    (applyCalls (PyArtConfig.init c) calls).y_range = (0, c.height) :=
  ⟨(applyCalls_presXY calls cfg).1, (applyCalls_presXY calls cfg).2,
   (applyCalls_presXY calls (PyArtConfig.init c)).1,
   (applyCalls_presXY calls (PyArtConfig.init c)).2⟩

/-- Claim C9's concrete shape: every attribute distinct so the columns can
be told apart (width 4, rx 6; flattened line "0 1 2 3 4 5 6 7 8 9 10 0.5"). -/
def sC9 : RandomShape :=
  { shape_type := 0, radius := 3, width := 4, height := 5, rx := 6, ry := 7,
    x := 1, y := 2, color_r := 8, color_g := 9, color_b := 10, opacity := 1 / 2 }

/-- C9, evaluation at the failing input: in the table generated from the
flattened line of `sC9`, the cell under the column named "RX" holds the
shape's width (4) and the cell under "W" holds its rx (6): `gen_df`'s
header list `SHA X Y RAD RX RY W H R G B OP` does not match the field
order of `__str__`, which is `... radius width height rx ry ...`. -/
theorem C9_rx_column_mislabeled :
    TableGen.colHeaders.get? 5 = some "RX" ∧
    TableGen.cell [sC9.as_Part2_line] 0 "RX" = some (intRepr sC9.width) ∧
    TableGen.cell [sC9.as_Part2_line] 0 "W" = some (intRepr sC9.rx) ∧
    TableGen.cell [sC9.as_Part2_line] 0 "CNT" = some (natChars 0) ∧
    TableGen.cell [sC9.as_Part2_line] 0 "RX" ≠ some (intRepr sC9.rx) := by
  with_unfolding_all decide

/-- Claim C10's concrete shape (negative one-decimal opacity included to
exercise the signed formats). -/
def sC10 : RandomShape :=
  { shape_type := 2, radius := 3, width := 4, height := 5, rx := 6, ry := 7,
    x := 1, y := 2, color_r := 8, color_g := 9, color_b := 10, opacity := -3 / 10 }

/-- C10: for every shape state whose opacity is an exact tenth (as every
`round(-, 1)` result is), the flatten-then-reconstruct round trip inside
`as_svg` — join the twelve attributes into one line, split it, parse
positions 1..10 as ints and the last as a float, pass them positionally to
the shape constructor — rebuilds a record whose x, y, rad, width, height,
rx, ry, red, green, blue, op fields equal the original attributes, for
each of the three shape constructors. -/
theorem C10_round_trip (s : RandomShape) (k : ℤ) (hop : s.opacity = (k : ℚ) / 10) :
    mkCircle s.reconData.1 s.reconData.2 =
      ⟨s.x, s.y, s.radius, s.width, s.height, s.rx, s.ry,
        s.color_r, s.color_g, s.color_b, s.opacity⟩ ∧
    mkRectangle s.reconData.1 s.reconData.2 =
      ⟨s.x, s.y, s.radius, s.width, s.height, s.rx, s.ry,
        s.color_r, s.color_g, s.color_b, s.opacity⟩ ∧
    mkEllipse s.reconData.1 s.reconData.2 =
      ⟨s.x, s.y, s.radius, s.width, s.height, s.rx, s.ry,
        s.color_r, s.color_g, s.color_b, s.opacity⟩ := by
  rw [reconData_eq s k hop]
  exact ⟨rfl, rfl, rfl⟩

/-- Witness for `C10_round_trip` at the concrete `sC10`. -/
theorem C10_round_trip_witness :
    mkCircle sC10.reconData.1 sC10.reconData.2 =
      ⟨1, 2, 3, 4, 5, 6, 7, 8, 9, 10, -3 / 10⟩ :=
  (C10_round_trip sC10 (-3) (by norm_num [sC10])).1
